import Mathlib

/-!
Verification of the receipt extraction-and-reconciliation pipeline.

The definitions below are a shallow embedding of:
- the receipt HTTP handlers (upload/process/retrieve/delete) of the
  sync-server receipt router;
- the extraction engine of receipt-processor.ts (JSON extraction from the
  model response, normalization of the parsed data);
- the reconciliation engine of the mobile ReceiptReview component
  (handleSave, updateExpense, payee resolution).

JavaScript strings are modelled as Lean String / List Char, JS numbers as
rationals (the code only copies and compares them, no float arithmetic
happens on the modelled paths), absent/undefined/null values as Option,
and JS falsiness of 0 and of the empty string explicitly where the code
relies on it.
-/

namespace Receipts

/-! ## File name handling (Node path.extname / path.basename semantics) -/

/-- Characters of a Bool-valued equality test used by the list scans. -/
def isPrefixB : List Char → List Char → Bool
  | [], _ => true
  | _ :: _, [] => false
  | a :: as, b :: bs => a == b && isPrefixB as bs

/-- JS String.includes: does the haystack contain the needle as a
contiguous substring. -/
def containsSub (needle : List Char) : List Char → Bool
  | [] => isPrefixB needle []
  | c :: t => isPrefixB needle (c :: t) || containsSub needle t

/-- Node path.extname on a plain filename: the suffix starting at the last
dot, empty when there is no dot or the dot is the first character. -/
def extnameL (cs : List Char) : List Char :=
  let r := cs.reverse.dropWhile (fun c => !(c == '.'))
  match r with
  | [] => []
  | [_] => []
  | _ => cs.drop (r.length - 1)

/-- Node path.basename(f, path.extname(f)): the filename with its
extension removed. -/
def stripExtL (cs : List Char) : List Char :=
  let r := cs.reverse.dropWhile (fun c => !(c == '.'))
  match r with
  | [] => cs
  | [_] => cs
  | _ => cs.take (r.length - 1)

/-- String-level basename-without-extension. -/
def stripExt (s : String) : String := String.mk (stripExtL s.data)

/-! ## The three lookup predicates of the receipt router

The process handler matches a stored file f when
f.startsWith(fileId + ".") or f.includes("_" + fileId + ".").
The retrieve and delete handlers match when the basename without
extension equals fileId or contains "_" + fileId. -/

/-- Matcher used by POST /receipt/process to find the stored file. -/
def processMatch (fileId f : String) : Bool :=
  isPrefixB (fileId.data ++ ['.']) f.data ||
    containsSub ('_' :: fileId.data ++ ['.']) f.data

/-- Matcher used by GET /receipt/:fileId and DELETE /receipt/:fileId. -/
def rdMatch (fileId f : String) : Bool :=
  stripExtL f.data == fileId.data ||
    containsSub ('_' :: fileId.data) (stripExtL f.data)

/-- The retrieve handler scans the storage directory (a list of file
names in directory order) and serves the first match, 404 otherwise. -/
def retrieveLookup (files : List String) (fileId : String) : Option String :=
  files.find? (rdMatch fileId)

/-- The process handler scans the storage directory and processes the
first match, 404 otherwise. -/
def processLookup (files : List String) (fileId : String) : Option String :=
  files.find? (processMatch fileId)

/-- The delete handler finds the first matching file, unlinks it and
returns the remaining directory; none models the 404 response. -/
def deleteReceiptOp (files : List String) (fileId : String) :
    Option (List String) :=
  match files.find? (rdMatch fileId) with
  | none => none
  | some f => some (files.erase f)

/-! ## MIME resolution tables -/

/-- getMimeType of receipt-processor.ts: extension table used when the
image is base64-encoded for the model call; unknown extensions default to
image/jpeg. -/
def getMimeType (ext : String) : String :=
  if ext = ".jpg" then "image/jpeg"
  else if ext = ".jpeg" then "image/jpeg"
  else if ext = ".png" then "image/png"
  else if ext = ".gif" then "image/gif"
  else if ext = ".webp" then "image/webp"
  else if ext = ".heic" then "image/heic"
  else if ext = ".heif" then "image/heif"
  else "image/jpeg"

/-- contentTypeMap of the GET /receipt/:fileId handler; unknown
extensions default to application/octet-stream. -/
def contentTypeFor (ext : String) : String :=
  if ext = ".jpg" then "image/jpeg"
  else if ext = ".jpeg" then "image/jpeg"
  else if ext = ".png" then "image/png"
  else if ext = ".gif" then "image/gif"
  else if ext = ".webp" then "image/webp"
  else if ext = ".heic" then "image/heic"
  else if ext = ".heif" then "image/heif"
  else "application/octet-stream"

/-! ## JSON extraction and parsing (receipt-processor.ts)

The code extracts candidate JSON with the greedy regular expression
matching an opening brace, any characters, and a closing brace, i.e. the
substring from the first opening brace to the last closing brace of the
response, and feeds it to JSON.parse; a parse failure (or no match) is
reported as the parse-failed error. isValidJson below is a fuel-indexed
recursive-descent acceptor for the JSON grammar (ECMA-404), standing in
for "JSON.parse succeeds". -/

/-- The opening-brace character, written via its code point. -/
def obrace : Char := Char.ofNat 123

/-- The closing-brace character, written via its code point. -/
def cbrace : Char := Char.ofNat 125

/-- JSON insignificant whitespace. -/
def isWsChar (c : Char) : Bool :=
  c == ' ' || c == '\t' || c == '\n' || c == '\r'

/-- Skip insignificant whitespace. -/
def skipWs (cs : List Char) : List Char := cs.dropWhile isWsChar

/-- ASCII decimal digit. -/
def isDigitC (c : Char) : Bool := 48 ≤ c.toNat && c.toNat ≤ 57

/-- ASCII hexadecimal digit. -/
def isHexC (c : Char) : Bool :=
  isDigitC c || (97 ≤ c.toNat && c.toNat ≤ 102) || (65 ≤ c.toNat && c.toNat ≤ 70)

/-- Accept the body of a JSON string after the opening quote, returning
the input after the closing quote. -/
def parseStrBody : Nat → List Char → Option (List Char)
  | 0, _ => none
  | _ + 1, [] => none
  | fuel + 1, c :: cs =>
    if c == '"' then some cs
    else if c == '\\' then
      match cs with
      | [] => none
      | e :: cs2 =>
        if e == '"' || e == '\\' || e == '/' || e == 'b' || e == 'f'
            || e == 'n' || e == 'r' || e == 't' then
          parseStrBody fuel cs2
        else if e == 'u' then
          match cs2 with
          | h1 :: h2 :: h3 :: h4 :: r =>
            if isHexC h1 && isHexC h2 && isHexC h3 && isHexC h4 then
              parseStrBody fuel r
            else none
          | _ => none
        else none
    else if c.toNat < 32 then none
    else parseStrBody fuel cs

/-- Accept a fixed literal continuation (rue / alse / ull). -/
def stripLit (lit cs : List Char) : Option (List Char) :=
  if isPrefixB lit cs then some (cs.drop lit.length) else none

/-- One or more digits. -/
def parseDigits1 : List Char → Option (List Char)
  | c :: rest => if isDigitC c then some (rest.dropWhile isDigitC) else none
  | [] => none

/-- JSON integer part: 0, or a nonzero digit followed by digits. -/
def parseIntPart : List Char → Option (List Char)
  | c :: rest =>
    if c == '0' then some rest
    else if isDigitC c then some (rest.dropWhile isDigitC)
    else none
  | [] => none

/-- Optional JSON fraction part. -/
def parseFracPart : List Char → Option (List Char)
  | c :: rest => if c == '.' then parseDigits1 rest else some (c :: rest)
  | [] => some []

/-- Optional JSON exponent part. -/
def parseExpPart : List Char → Option (List Char)
  | c :: rest =>
    if c == 'e' || c == 'E' then
      match rest with
      | s :: r2 =>
        if s == '+' || s == '-' then parseDigits1 r2 else parseDigits1 rest
      | [] => none
    else some (c :: rest)
  | [] => some []

/-- JSON number (the leading minus handled here). -/
def parseNum (cs : List Char) : Option (List Char) :=
  let cs1 := match cs with
    | c :: r => if c == '-' then r else c :: r
    | [] => []
  match parseIntPart cs1 with
  | none => none
  | some r1 =>
    match parseFracPart r1 with
    | none => none
    | some r2 => parseExpPart r2

mutual

/-- Accept one JSON value, returning the remaining input. -/
def parseValue : Nat → List Char → Option (List Char)
  | 0, _ => none
  | fuel + 1, cs =>
    match skipWs cs with
    | [] => none
    | c :: rest =>
      if c == '"' then parseStrBody (rest.length + 1) rest
      else if c == obrace then parseObjBody fuel rest
      else if c == '[' then parseArrBody fuel rest
      else if c == 't' then stripLit ['r', 'u', 'e'] rest
      else if c == 'f' then stripLit ['a', 'l', 's', 'e'] rest
      else if c == 'n' then stripLit ['u', 'l', 'l'] rest
      else if c == '-' || isDigitC c then parseNum (c :: rest)
      else none

/-- Accept an object body after the opening brace. -/
def parseObjBody : Nat → List Char → Option (List Char)
  | 0, _ => none
  | fuel + 1, cs =>
    match skipWs cs with
    | [] => none
    | c :: rest =>
      if c == cbrace then some rest
      else if c == '"' then
        match parseStrBody (rest.length + 1) rest with
        | none => none
        | some afterKey =>
          match skipWs afterKey with
          | c2 :: r2 =>
            if c2 == ':' then
              match parseValue fuel r2 with
              | none => none
              | some afterVal => parseObjTail fuel afterVal
            else none
          | [] => none
      else none

/-- Accept the rest of an object after a member: a comma and another
member, or the closing brace. -/
def parseObjTail : Nat → List Char → Option (List Char)
  | 0, _ => none
  | fuel + 1, cs =>
    match skipWs cs with
    | [] => none
    | c :: rest =>
      if c == cbrace then some rest
      else if c == ',' then
        match skipWs rest with
        | c2 :: r2 =>
          if c2 == '"' then
            match parseStrBody (r2.length + 1) r2 with
            | none => none
            | some afterKey =>
              match skipWs afterKey with
              | c3 :: r3 =>
                if c3 == ':' then
                  match parseValue fuel r3 with
                  | none => none
                  | some afterVal => parseObjTail fuel afterVal
                else none
              | [] => none
          else none
        | [] => none
      else none

/-- Accept an array body after the opening bracket. -/
def parseArrBody : Nat → List Char → Option (List Char)
  | 0, _ => none
  | fuel + 1, cs =>
    match skipWs cs with
    | [] => none
    | c :: rest =>
      if c == ']' then some rest
      else
        match parseValue fuel (c :: rest) with
        | none => none
        | some after => parseArrTail fuel after

/-- Accept the rest of an array after an element. -/
def parseArrTail : Nat → List Char → Option (List Char)
  | 0, _ => none
  | fuel + 1, cs =>
    match skipWs cs with
    | [] => none
    | c :: rest =>
      if c == ']' then some rest
      else if c == ',' then
        match parseValue fuel rest with
        | none => none
        | some after => parseArrTail fuel after
      else none

end

/-- JSON.parse acceptance: one value, then only whitespace. -/
def isValidJson (s : String) : Bool :=
  match parseValue (2 * s.length + 4) s.data with
  | some rest => (skipWs rest).isEmpty
  | none => false

/-- The greedy extraction performed by the code: the substring from the
first opening brace to the last closing brace after it, none when the
regular expression does not match. -/
def jsonMatchL (cs : List Char) : Option (List Char) :=
  match (cs.dropWhile (fun c => !(c == obrace))).reverse.dropWhile
      (fun c => !(c == cbrace)) with
  | [] => none
  | r => some r.reverse

/-- The parse step of processReceipt: extract with the greedy regular
expression, then JSON.parse; none models the thrown parse error. -/
def receiptParse (content : String) : Option String :=
  match jsonMatchL content.data with
  | none => none
  | some s => if isValidJson (String.mk s) then some (String.mk s) else none

/-- Modelled from the spec: scan for the first balanced brace-delimited
object of the text, the extraction the spec claims the engine performs
(brace counting, ignoring braces inside string literals, which the
inputs used here do not contain). -/
def balScan : Nat → List Char → List Char → Option (List Char)
  | _, _, [] => none
  | d, acc, c :: rest =>
    if c == obrace then balScan (d + 1) (c :: acc) rest
    else if c == cbrace then
      match d with
      | 0 => none
      | 1 => some (c :: acc).reverse
      | d2 + 2 => balScan (d2 + 1) (c :: acc) rest
    else balScan d (c :: acc) rest

/-- Modelled from the spec: the first balanced JSON object of the text. -/
def firstBalancedObj (cs : List Char) : Option (List Char) :=
  match cs.dropWhile (fun c => !(c == obrace)) with
  | [] => none
  | c :: rest => balScan 1 [c] rest

/-! ## Normalization of the parsed model response (receipt-processor.ts)

The object returned by JSON.parse is dynamic; its fields of interest are
modelled with Option (none = absent or null).  The code tests each field
with the JS or-operator, under which the number 0 and the empty string
are falsy, so those defaulting semantics are made explicit below. -/

/-- A raw expense object inside the parsed model response. -/
structure RawExpense where
  amount : Option ℚ
  merchant : Option String
  date : Option String
  categoryId : Option String
  categoryName : Option String
  note : Option String
  confidence : Option ℚ
deriving DecidableEq

/-- The parsed top-level model response. -/
structure ParsedData where
  expenses : Option (List RawExpense)
  totalAmount : Option ℚ
  date : Option String
  merchant : Option String
  confidence : Option ℚ
deriving DecidableEq

/-- JS x or-else d for a number-valued field: 0, null and undefined are
falsy. -/
def qOr (x : Option ℚ) (d : ℚ) : ℚ :=
  match x with
  | some v => if v = 0 then d else v
  | none => d

/-- JS x or-else d for a string-valued field: the empty string, null and
undefined are falsy. -/
def sOr (x : Option String) (d : String) : String :=
  match x with
  | some s => if s = "" then d else s
  | none => d

/-- JS x or-else null for a string-valued field. -/
def sOrNull (x : Option String) : Option String :=
  match x with
  | some s => if s = "" then none else some s
  | none => none

/-- A normalized expense of the process result. -/
structure ReceiptExpense where
  amount : ℚ
  merchant : String
  date : String
  categoryId : Option String
  categoryName : String
  note : String
  confidence : ℚ
deriving DecidableEq

/-- The normalized process result. -/
structure ReceiptProcessResult where
  expenses : List ReceiptExpense
  totalAmount : ℚ
  receiptDate : Option String
  merchant : Option String
  confidence : ℚ
  rawResponse : Option String
deriving DecidableEq

/-- The per-expense normalization of processReceipt: amount :=
expense.amount or 0; merchant := parsedData.merchant or expense.merchant
or the empty string; date := expense.date or parsedData.date or the
current date; categoryId := expense.categoryId or null; categoryName :=
expense.categoryName or Uncategorized; note := expense.note or the empty
string; confidence := expense.confidence or 0.5. -/
def normalizeExpense (today : String) (p : ParsedData) (e : RawExpense) :
    ReceiptExpense :=
  { amount := qOr e.amount 0
    merchant := sOr p.merchant (sOr e.merchant "")
    date := sOr e.date (sOr p.date today)
    categoryId := sOrNull e.categoryId
    categoryName := sOr e.categoryName "Uncategorized"
    note := sOr e.note ""
    confidence := qOr e.confidence (1 / 2) }

/-- The expense list of the parsed response, defaulting null/absent to
the empty list (a present empty array is truthy in JS and kept). -/
def expList (p : ParsedData) : List RawExpense :=
  match p.expenses with
  | some l => l
  | none => []

/-- The whole result assembly of processReceipt after a successful
parse. -/
def processResult (today raw : String) (p : ParsedData) :
    ReceiptProcessResult :=
  { expenses := (expList p).map (normalizeExpense today p)
    totalAmount := qOr p.totalAmount 0
    receiptDate := sOrNull p.date
    merchant := sOrNull p.merchant
    confidence := qOr p.confidence (1 / 2)
    rawResponse := some raw }

/-! ## Well-formedness checks used to state the C4 invariant -/

/-- The date shape YYYY-MM-DD: four digits, a dash, two digits, a dash,
two digits. -/
def isYMD (s : String) : Bool :=
  match s.data with
  | [y1, y2, y3, y4, a, m1, m2, b, d1, d2] =>
    isDigitC y1 && isDigitC y2 && isDigitC y3 && isDigitC y4
      && a == '-' && isDigitC m1 && isDigitC m2
      && b == '-' && isDigitC d1 && isDigitC d2
  | _ => false

/-- A rational that is a non-negative integer. -/
def isNonnegIntQ (q : ℚ) : Bool := q.den == 1 && decide (0 ≤ q.num)

/-- A present amount is a non-negative integer. -/
def amountOk : Option ℚ → Bool
  | none => true
  | some a => isNonnegIntQ a

/-- A present non-empty date has the shape YYYY-MM-DD. -/
def dateOk : Option String → Bool
  | none => true
  | some d => (d == "") || isYMD d

/-- A present confidence lies in the unit interval. -/
def confOk : Option ℚ → Bool
  | none => true
  | some c => decide (0 ≤ c) && decide (c ≤ 1)

/-! ## Inputs used by the C3 and C4 concrete theorems -/

/-- An expense carrying its own merchant and a confidence of zero. -/
def rawE3 : RawExpense :=
  { amount := some 100, merchant := some "OwnShop",
    date := some "2024-01-01", categoryId := none, categoryName := none,
    note := none, confidence := some 0 }

/-- A parsed response whose top level names a different merchant. -/
def parsed3 : ParsedData :=
  { expenses := some [rawE3], totalAmount := some 100,
    date := some "2024-01-02", merchant := some "TopMart",
    confidence := some 1 }

/-- An expense whose amount parsed as a negative number. -/
def rawE4 : RawExpense :=
  { amount := some (-5), merchant := none, date := some "2024-01-01",
    categoryId := none, categoryName := none, note := none,
    confidence := some (1 / 2) }

/-- A parseable response containing the negative-amount expense. -/
def parsed4 : ParsedData :=
  { expenses := some [rawE4], totalAmount := none, date := none,
    merchant := none, confidence := none }

/-- A well-formed expense used to witness the amended C4 invariant. -/
def rawE4w : RawExpense :=
  { amount := some 7, merchant := some "Shop",
    date := some "2024-03-04", categoryId := some "c1",
    categoryName := some "Groceries", note := some "milk",
    confidence := some 1 }

/-- A well-formed parsed response used to witness the amended C4
invariant. -/
def parsed4w : ParsedData :=
  { expenses := some [rawE4w], totalAmount := some 7,
    date := some "2024-03-04", merchant := some "Shop",
    confidence := some 1 }

/-! ## Reconciliation engine (ReceiptReview.tsx handleSave)

handleSave iterates over the editable expenses; for each it first throws
when the account is missing, then resolves a payee (looking the merchant
up case-insensitively in the payee snapshot and creating a payee
otherwise), then appends a transaction draft; only after the whole loop
does it submit the drafts as one batch.  External calls (payee-create
and the batch submission) are recorded in an effect log; the error
result models the thrown exception. -/

/-- A known payee of the client snapshot. -/
structure Payee where
  id : String
  name : String
deriving DecidableEq

/-- A session-local editable expense. -/
structure EditableExpense where
  id : String
  amount : ℚ
  merchant : String
  date : String
  categoryId : Option String
  categoryName : String
  note : String
  confidence : ℚ
  account : Option String
  payee : Option String
deriving DecidableEq

/-- JS truthiness of an optional string: undefined, null and the empty
string are falsy. -/
def jsTruthyS : Option String → Bool
  | none => false
  | some s => !(s == "")

/-- A transaction draft as assembled at commit (the session-local
temp id, generated from the clock and a random number, is not
modelled). -/
structure Txn where
  account : Option String
  date : String
  amount : ℚ
  payee : Option String
  category : Option String
  notes : String
  cleared : Bool
deriving DecidableEq

/-- An externally visible call made during commit. -/
inductive Effect where
  | payeeCreate (name id : String)
  | batchSubmit (txns : List Txn)
deriving DecidableEq

/-- Whether an effect is the batch submission. -/
def isBatch : Effect → Bool
  | Effect.batchSubmit _ => true
  | Effect.payeeCreate _ _ => false

/-- Per-expense payee resolution of handleSave: when the expense has no
truthy payee and a non-empty merchant, find the first payee whose
lowercased name equals the lowercased merchant and reuse its id, else
create a payee named after the merchant; otherwise keep the expense's
payee untouched. -/
def resolvePayee (payees : List Payee) (freshId : String)
    (e : EditableExpense) : Option String × List Effect :=
  if !(jsTruthyS e.payee) && !(e.merchant == "") then
    match payees.find? (fun p => p.name.toLower == e.merchant.toLower) with
    | some p => (some p.id, [])
    | none => (some freshId, [Effect.payeeCreate e.merchant freshId])
  else (e.payee, [])

/-- The transaction draft built from one expense. -/
def mkTxn (url : String) (e : EditableExpense) (pid : Option String) : Txn :=
  { account := e.account, date := e.date, amount := e.amount,
    payee := pid, category := e.categoryId, notes := url,
    cleared := false }

/-- The commit loop of handleSave: per expense, check the account, then
resolve the payee, then append the draft; after the loop submit all
drafts as one batch.  fresh supplies the server-generated ids of created
payees. -/
def saveLoop (payees : List Payee) (fresh : Nat → String) (url : String) :
    Nat → List Txn → List Effect → List EditableExpense →
      List Effect × Except String (List Txn)
  | _, txns, effs, [] =>
    (effs ++ [Effect.batchSubmit txns], Except.ok txns)
  | k, txns, effs, e :: rest =>
    if jsTruthyS e.account then
      let r := resolvePayee payees (fresh k) e
      saveLoop payees fresh url (if r.2.isEmpty then k else k + 1)
        (txns ++ [mkTxn url e r.1]) (effs ++ r.2) rest
    else (effs, Except.error "All expenses must have an account")

/-- handleSave on a list of editable expenses. -/
def handleSave (payees : List Payee) (fresh : Nat → String) (url : String)
    (exps : List EditableExpense) :
    List Effect × Except String (List Txn) :=
  saveLoop payees fresh url 0 [] [] exps

/-! ## Field update of the review session (updateExpense) -/

/-- A single-field update request, one constructor per editable field
the session can write. -/
inductive FieldUpdate where
  | amount (v : ℚ)
  | merchant (v : String)
  | date (v : String)
  | categoryId (v : Option String)
  | categoryName (v : String)
  | note (v : String)
  | confidence (v : ℚ)
  | account (v : Option String)
  | payee (v : Option String)
deriving DecidableEq

/-- The dynamic single-field assignment of updateExpense. -/
def setField : FieldUpdate → EditableExpense → EditableExpense
  | FieldUpdate.amount v, e => { e with amount := v }
  | FieldUpdate.merchant v, e => { e with merchant := v }
  | FieldUpdate.date v, e => { e with date := v }
  | FieldUpdate.categoryId v, e => { e with categoryId := v }
  | FieldUpdate.categoryName v, e => { e with categoryName := v }
  | FieldUpdate.note v, e => { e with note := v }
  | FieldUpdate.confidence v, e => { e with confidence := v }
  | FieldUpdate.account v, e => { e with account := v }
  | FieldUpdate.payee v, e => { e with payee := v }

/-- updateExpense of ReceiptReview: map over the list, replacing the
field on every expense whose id matches. -/
def updateExpense (eid : String) (u : FieldUpdate)
    (l : List EditableExpense) : List EditableExpense :=
  l.map (fun e => if e.id == eid then setField u e else e)

/-- The frame condition of a single-field update: the named field holds
the new value and every other field is unchanged. -/
def frameOK : FieldUpdate → EditableExpense → EditableExpense → Prop
  | FieldUpdate.amount v, e, r => r.amount = v ∧ r.id = e.id
      ∧ r.merchant = e.merchant ∧ r.date = e.date
      ∧ r.categoryId = e.categoryId ∧ r.categoryName = e.categoryName
      ∧ r.note = e.note ∧ r.confidence = e.confidence
      ∧ r.account = e.account ∧ r.payee = e.payee
  | FieldUpdate.merchant v, e, r => r.merchant = v ∧ r.id = e.id
      ∧ r.amount = e.amount ∧ r.date = e.date
      ∧ r.categoryId = e.categoryId ∧ r.categoryName = e.categoryName
      ∧ r.note = e.note ∧ r.confidence = e.confidence
      ∧ r.account = e.account ∧ r.payee = e.payee
  | FieldUpdate.date v, e, r => r.date = v ∧ r.id = e.id
      ∧ r.amount = e.amount ∧ r.merchant = e.merchant
      ∧ r.categoryId = e.categoryId ∧ r.categoryName = e.categoryName
      ∧ r.note = e.note ∧ r.confidence = e.confidence
      ∧ r.account = e.account ∧ r.payee = e.payee
  | FieldUpdate.categoryId v, e, r => r.categoryId = v ∧ r.id = e.id
      ∧ r.amount = e.amount ∧ r.merchant = e.merchant ∧ r.date = e.date
      ∧ r.categoryName = e.categoryName
      ∧ r.note = e.note ∧ r.confidence = e.confidence
      ∧ r.account = e.account ∧ r.payee = e.payee
  | FieldUpdate.categoryName v, e, r => r.categoryName = v ∧ r.id = e.id
      ∧ r.amount = e.amount ∧ r.merchant = e.merchant ∧ r.date = e.date
      ∧ r.categoryId = e.categoryId
      ∧ r.note = e.note ∧ r.confidence = e.confidence
      ∧ r.account = e.account ∧ r.payee = e.payee
  | FieldUpdate.note v, e, r => r.note = v ∧ r.id = e.id
      ∧ r.amount = e.amount ∧ r.merchant = e.merchant ∧ r.date = e.date
      ∧ r.categoryId = e.categoryId ∧ r.categoryName = e.categoryName
      ∧ r.confidence = e.confidence
      ∧ r.account = e.account ∧ r.payee = e.payee
  | FieldUpdate.confidence v, e, r => r.confidence = v ∧ r.id = e.id
      ∧ r.amount = e.amount ∧ r.merchant = e.merchant ∧ r.date = e.date
      ∧ r.categoryId = e.categoryId ∧ r.categoryName = e.categoryName
      ∧ r.note = e.note
      ∧ r.account = e.account ∧ r.payee = e.payee
  | FieldUpdate.account v, e, r => r.account = v ∧ r.id = e.id
      ∧ r.amount = e.amount ∧ r.merchant = e.merchant ∧ r.date = e.date
      ∧ r.categoryId = e.categoryId ∧ r.categoryName = e.categoryName
      ∧ r.note = e.note ∧ r.confidence = e.confidence
      ∧ r.payee = e.payee
  | FieldUpdate.payee v, e, r => r.payee = v ∧ r.id = e.id
      ∧ r.amount = e.amount ∧ r.merchant = e.merchant ∧ r.date = e.date
      ∧ r.categoryId = e.categoryId ∧ r.categoryName = e.categoryName
      ∧ r.note = e.note ∧ r.confidence = e.confidence
      ∧ r.account = e.account

/-! ## Concrete commit inputs used by C5, C6, C7 and C9 -/

/-- An expense with an account and a merchant unknown to the payee
snapshot. -/
def eGoodM : EditableExpense :=
  { id := "expense-0", amount := 500, merchant := "NewShop",
    date := "2024-01-01", categoryId := none, categoryName := "Misc",
    note := "", confidence := 1, account := some "acc1", payee := none }

/-- An expense lacking an account. -/
def eNoAcc : EditableExpense :=
  { id := "expense-1", amount := 300, merchant := "Other",
    date := "2024-01-01", categoryId := none, categoryName := "Misc",
    note := "", confidence := 1, account := none, payee := none }

/-- An account-less expense used by the C5 witness. -/
def e5Bad : EditableExpense :=
  { id := "expense-0", amount := 100, merchant := "Shop",
    date := "2024-01-01", categoryId := none, categoryName := "Misc",
    note := "", confidence := 1, account := none, payee := none }

/-- A known payee used by the C7 witness. -/
def payee7 : Payee := { id := "p1", name := "Coffee Shop" }

/-- An expense with an explicit payee used by the C7 witness. -/
def exp7 : EditableExpense :=
  { id := "expense-0", amount := 100, merchant := "coffee shop",
    date := "2024-01-01", categoryId := none, categoryName := "Misc",
    note := "", confidence := 1, account := some "acc1",
    payee := some "chosen" }

/-- First expense of the C9 witness list. -/
def exp9a : EditableExpense :=
  { id := "expense-0", amount := 100, merchant := "A",
    date := "2024-01-01", categoryId := none, categoryName := "Misc",
    note := "", confidence := 1, account := some "acc1", payee := none }

/-- Second expense of the C9 witness list. -/
def exp9b : EditableExpense :=
  { id := "expense-1", amount := 200, merchant := "B",
    date := "2024-01-02", categoryId := none, categoryName := "Misc",
    note := "", confidence := 1, account := some "acc1", payee := none }

end Receipts

namespace Receipts

/-- C1. The claim states that for process, retrieve and delete a fileId
matches a stored file if and only if the file's basename without
extension equals the fileId, with no substring or prefix matching, so one
fileId maps to exactly one file. The code instead matches by prefix and
substring: this evaluation shows a stored file receipt_a.jpg, whose
basename receipt_a differs from the fileId a, being found by all three
operations, and two distinct stored files both matching the single
fileId x. -/
theorem c1_lookup_not_exact_eval :
    stripExt "receipt_a.jpg" ≠ "a"
    ∧ retrieveLookup ["receipt_a.jpg"] "a" = some "receipt_a.jpg"
    ∧ processLookup ["receipt_a.jpg"] "a" = some "receipt_a.jpg"
    ∧ deleteReceiptOp ["receipt_a.jpg"] "a" = some []
    ∧ rdMatch "x" "a_x.jpg" = true
    ∧ rdMatch "x" "b_x.jpg" = true := by
  decide

/-- C8. The claim states that a successful delete followed by a retrieve
on the same fileId always yields NotFoundError. Because the matcher is
substring-based and delete removes only the first match, with stored
files a_x.jpg and b_x.jpg the delete of fileId x removes a_x.jpg and the
subsequent retrieve serves b_x.jpg instead of failing. -/
theorem c8_delete_then_retrieve_eval :
    deleteReceiptOp ["a_x.jpg", "b_x.jpg"] "x" = some ["b_x.jpg"]
    ∧ retrieveLookup ["b_x.jpg"] "x" = some "b_x.jpg"
    ∧ retrieveLookup ["b_x.jpg"] "x" ≠ none := by
  decide

/-- C2 counterexample. The claim states the engine extracts the first
balanced JSON object of the raw text and that a response of prose plus
one well-formed JSON object parses successfully. For the response whose
first balanced object is a well-formed JSON object but whose trailing
prose contains a stray closing brace, the greedy extraction spans to
that stray brace and JSON.parse fails, so process fails with ParseError
although the text contains a well-formed JSON object. -/
theorem c2_first_balanced_counterexample :
    firstBalancedObj ("\x7b\"a\":1\x7d x\x7d").data
      = some ("\x7b\"a\":1\x7d").data
    ∧ isValidJson "\x7b\"a\":1\x7d" = true
    ∧ receiptParse "\x7b\"a\":1\x7d x\x7d" = none := by
  decide

/-- C2 amended. The engine extracts the substring from the first opening
brace to the last closing brace of the raw text (greedy, not the first
balanced object) and parses it; for a response of prose plus one
well-formed JSON object, parsing succeeds on that object provided the
leading prose contains no opening brace and the trailing prose contains
no closing brace. -/
theorem c2_greedy_extraction (pre mid post : List Char)
    (hpre : obrace ∉ pre) (hpost : cbrace ∉ post)
    (hval : isValidJson (String.mk (obrace :: mid ++ [cbrace])) = true) :
    receiptParse (String.mk (pre ++ (obrace :: mid ++ [cbrace]) ++ post))
      = some (String.mk (obrace :: mid ++ [cbrace])) := by
  have hp : ∀ a ∈ pre, (!(a == obrace)) = true := by
    intro a ha
    have hne : a ≠ obrace := fun h => hpre (h ▸ ha)
    simp [hne]
  have hq : ∀ a ∈ post.reverse, (!(a == cbrace)) = true := by
    intro a ha
    have hne : a ≠ cbrace := fun h => hpost (h ▸ List.mem_reverse.mp ha)
    simp [hne]
  have e1 : (pre ++ ((obrace :: (mid ++ [cbrace])) ++ post)).dropWhile
        (fun c => !(c == obrace))
      = obrace :: ((mid ++ [cbrace]) ++ post) := by
    rw [List.dropWhile_append_of_pos hp]
    simp [List.dropWhile_cons]
  have e2 : (obrace :: ((mid ++ [cbrace]) ++ post)).reverse.dropWhile
        (fun c => !(c == cbrace))
      = cbrace :: (mid.reverse ++ [obrace]) := by
    have hrev : (obrace :: ((mid ++ [cbrace]) ++ post)).reverse
        = post.reverse ++ (cbrace :: (mid.reverse ++ [obrace])) := by
      simp
    rw [hrev, List.dropWhile_append_of_pos hq]
    simp [List.dropWhile_cons]
  have hm : jsonMatchL (pre ++ ((obrace :: (mid ++ [cbrace])) ++ post))
      = some (obrace :: (mid ++ [cbrace])) := by
    unfold jsonMatchL
    rw [e1, e2]
    simp
  unfold receiptParse
  have hdata : (String.mk (pre ++ (obrace :: mid ++ [cbrace]) ++ post)).data
      = pre ++ ((obrace :: (mid ++ [cbrace])) ++ post) := by
    simp
  rw [hdata, hm]
  simp
  simpa using hval

/-- C2 witness: the amended theorem applied to prose around a concrete
one-member JSON object. -/
theorem c2_greedy_extraction_witness :
    receiptParse (String.mk ((" ok ").data
        ++ (obrace :: ("\"a\":1").data ++ [cbrace]) ++ (" done").data))
      = some (String.mk (obrace :: ("\"a\":1").data ++ [cbrace])) :=
  c2_greedy_extraction (" ok ").data ("\"a\":1").data (" done").data
    (by decide) (by decide) (by decide)

/-- C3 counterexample. The claim states normalization leaves fields that
are present in an expense unchanged, in particular an expense's own
merchant and a confidence of 0. In the code the top-level merchant takes
precedence over the expense's own merchant, and a confidence of 0 is
falsy and replaced by 0.5. -/
theorem c3_present_fields_counterexample :
    rawE3.merchant = some "OwnShop"
    ∧ (normalizeExpense "2024-05-05" parsed3 rawE3).merchant = "TopMart"
    ∧ (normalizeExpense "2024-05-05" parsed3 rawE3).merchant ≠ "OwnShop"
    ∧ rawE3.confidence = some 0
    ∧ (normalizeExpense "2024-05-05" parsed3 rawE3).confidence = 1 / 2
    ∧ (normalizeExpense "2024-05-05" parsed3 rawE3).confidence ≠ 0 := by
  refine ⟨rfl, ?_, ?_, rfl, ?_, ?_⟩
  · simp [normalizeExpense, sOr, parsed3, rawE3]
  · simp [normalizeExpense, sOr, parsed3, rawE3]
  · simp [normalizeExpense, qOr, rawE3]
  · norm_num [normalizeExpense, qOr, rawE3]

/-- C3 amended. Normalization fills each field by JS or-defaulting, under
which 0 and the empty string count as missing: merchant is the top-level
merchant when non-empty (overriding the expense's own), else the
expense's merchant, else empty; amount is the expense's amount when
non-zero, else 0; date is the expense's non-empty date, else the
top-level non-empty date, else the current date; categoryId is the
expense's non-empty categoryId, else null; categoryName is the expense's
non-empty categoryName, else Uncategorized; note is the expense's
non-empty note, else empty; confidence is the expense's non-zero
confidence, else 0.5 (so a confidence of 0 becomes 0.5). -/
theorem c3_normalization_defaults (today : String) (p : ParsedData)
    (e : RawExpense) :
    (∀ m, p.merchant = some m → m ≠ "" →
      (normalizeExpense today p e).merchant = m)
    ∧ ((p.merchant = none ∨ p.merchant = some "") →
      ∀ m, e.merchant = some m → m ≠ "" →
        (normalizeExpense today p e).merchant = m)
    ∧ ((p.merchant = none ∨ p.merchant = some "") →
      (e.merchant = none ∨ e.merchant = some "") →
        (normalizeExpense today p e).merchant = "")
    ∧ (∀ a, e.amount = some a → a ≠ 0 →
      (normalizeExpense today p e).amount = a)
    ∧ ((e.amount = none ∨ e.amount = some 0) →
      (normalizeExpense today p e).amount = 0)
    ∧ (∀ d, e.date = some d → d ≠ "" →
      (normalizeExpense today p e).date = d)
    ∧ ((e.date = none ∨ e.date = some "") →
      ∀ d, p.date = some d → d ≠ "" →
        (normalizeExpense today p e).date = d)
    ∧ ((e.date = none ∨ e.date = some "") →
      (p.date = none ∨ p.date = some "") →
        (normalizeExpense today p e).date = today)
    ∧ (∀ c, e.categoryId = some c → c ≠ "" →
      (normalizeExpense today p e).categoryId = some c)
    ∧ ((e.categoryId = none ∨ e.categoryId = some "") →
      (normalizeExpense today p e).categoryId = none)
    ∧ (∀ n, e.categoryName = some n → n ≠ "" →
      (normalizeExpense today p e).categoryName = n)
    ∧ ((e.categoryName = none ∨ e.categoryName = some "") →
      (normalizeExpense today p e).categoryName = "Uncategorized")
    ∧ (∀ n, e.note = some n → n ≠ "" →
      (normalizeExpense today p e).note = n)
    ∧ ((e.note = none ∨ e.note = some "") →
      (normalizeExpense today p e).note = "")
    ∧ (∀ c, e.confidence = some c → c ≠ 0 →
      (normalizeExpense today p e).confidence = c)
    ∧ ((e.confidence = none ∨ e.confidence = some 0) →
      (normalizeExpense today p e).confidence = 1 / 2) := by
  refine ⟨?_, ?_, ?_, ?_, ?_, ?_, ?_, ?_, ?_, ?_, ?_, ?_, ?_, ?_, ?_, ?_⟩
  · intro m hm hne
    simp [normalizeExpense, sOr, hm, hne]
  · intro hp m hm hne
    rcases hp with h | h <;> simp [normalizeExpense, sOr, h, hm, hne]
  · intro hp he
    rcases hp with h | h <;> rcases he with h2 | h2 <;>
      simp [normalizeExpense, sOr, h, h2]
  · intro a ha hne
    simp [normalizeExpense, qOr, ha, hne]
  · intro ha
    rcases ha with h | h <;> simp [normalizeExpense, qOr, h]
  · intro d hd hne
    simp [normalizeExpense, sOr, hd, hne]
  · intro he d hd hne
    rcases he with h | h <;> simp [normalizeExpense, sOr, h, hd, hne]
  · intro he hp
    rcases he with h | h <;> rcases hp with h2 | h2 <;>
      simp [normalizeExpense, sOr, h, h2]
  · intro c hc hne
    simp [normalizeExpense, sOrNull, hc, hne]
  · intro hc
    rcases hc with h | h <;> simp [normalizeExpense, sOrNull, h]
  · intro n hn hne
    simp [normalizeExpense, sOr, hn, hne]
  · intro hn
    rcases hn with h | h <;> simp [normalizeExpense, sOr, h]
  · intro n hn hne
    simp [normalizeExpense, sOr, hn, hne]
  · intro hn
    rcases hn with h | h <;> simp [normalizeExpense, sOr, h]
  · intro c hc hne
    simp [normalizeExpense, qOr, hc, hne]
  · intro hc
    rcases hc with h | h <;> simp [normalizeExpense, qOr, h]

/-- C3 witness: the top-level merchant override evaluated on a concrete
parsed response. -/
theorem c3_normalization_defaults_witness :
    (normalizeExpense "2024-05-05" parsed3 rawE3).merchant = "TopMart" :=
  (c3_normalization_defaults "2024-05-05" parsed3 rawE3).1 "TopMart" rfl
    (by decide)

/-- A present well-formed amount survives or-defaulting with 0. -/
theorem amountOk_qOr {x : Option ℚ} (h : amountOk x = true) :
    isNonnegIntQ (qOr x 0) = true := by
  cases x with
  | none =>
    simp [qOr]
    decide
  | some a =>
    simp only [amountOk] at h
    by_cases h0 : a = 0
    · subst h0
      simp [qOr]
      decide
    · simpa [qOr, h0] using h

/-- A well-formed optional date or-defaulted with a well-formed date is
well-formed. -/
theorem isYMD_sOr {x : Option String} {d : String} (hx : dateOk x = true)
    (hd : isYMD d = true) : isYMD (sOr x d) = true := by
  cases x with
  | none => simpa [sOr] using hd
  | some s =>
    by_cases hs : s = ""
    · subst hs
      simpa [sOr] using hd
    · simp only [dateOk, Bool.or_eq_true, beq_iff_eq, hs, false_or] at hx
      simpa [sOr, hs] using hx

/-- A present confidence in the unit interval survives or-defaulting
with one half. -/
theorem confOk_qOr {x : Option ℚ} (h : confOk x = true) :
    0 ≤ qOr x (1 / 2) ∧ qOr x (1 / 2) ≤ 1 := by
  cases x with
  | none =>
    simp only [qOr]
    norm_num
  | some c =>
    simp only [confOk, Bool.and_eq_true, decide_eq_true_eq] at h
    by_cases h0 : c = 0
    · subst h0
      simp only [qOr, if_pos rfl]
      norm_num
    · simpa [qOr, h0] using h

/-- C4 counterexample. The claim states every expense of a successful
extraction has a non-negative integer amount; the code performs no
validation, so a parseable response carrying a negative amount flows
through unchanged. -/
theorem c4_invariant_counterexample :
    (processResult "2024-05-05" "raw" parsed4).expenses.map
        ReceiptExpense.amount = [-5]
    ∧ isNonnegIntQ (-5) = false
    ∧ ¬ (0 ≤ (-5 : ℚ)) := by
  decide

/-- C4 amended. The invariant holds only conditionally: when the current
date is well-formed and every present field of the parsed response is
well-formed (present amounts non-negative integers, present non-empty
dates shaped YYYY-MM-DD, present confidences in the unit interval), then
every expense of the result has a non-negative integer amount, a
YYYY-MM-DD date and a confidence in the unit interval; the code itself
validates nothing. -/
theorem c4_invariant_under_wellformed (today raw : String) (p : ParsedData)
    (htoday : isYMD today = true)
    (hpd : dateOk p.date = true)
    (hexp : ∀ e ∈ expList p, amountOk e.amount = true
      ∧ dateOk e.date = true ∧ confOk e.confidence = true) :
    ∀ x ∈ (processResult today raw p).expenses,
      isNonnegIntQ x.amount = true ∧ isYMD x.date = true
        ∧ 0 ≤ x.confidence ∧ x.confidence ≤ 1 := by
  intro x hx
  simp only [processResult, List.mem_map] at hx
  obtain ⟨e, he, rfl⟩ := hx
  obtain ⟨ha, hd, hc⟩ := hexp e he
  have hamount : isNonnegIntQ (normalizeExpense today p e).amount = true := by
    simpa [normalizeExpense] using amountOk_qOr ha
  have hdate : isYMD (normalizeExpense today p e).date = true := by
    simpa [normalizeExpense] using isYMD_sOr hd (isYMD_sOr hpd htoday)
  have hconf := confOk_qOr hc
  exact ⟨hamount, hdate, by simpa [normalizeExpense] using hconf.1,
    by simpa [normalizeExpense] using hconf.2⟩

/-- C4 witness: the amended invariant evaluated on a concrete
well-formed parsed response. -/
theorem c4_invariant_witness :
    isNonnegIntQ (normalizeExpense "2024-05-05" parsed4w rawE4w).amount = true
    ∧ isYMD (normalizeExpense "2024-05-05" parsed4w rawE4w).date = true
    ∧ 0 ≤ (normalizeExpense "2024-05-05" parsed4w rawE4w).confidence
    ∧ (normalizeExpense "2024-05-05" parsed4w rawE4w).confidence ≤ 1 :=
  c4_invariant_under_wellformed "2024-05-05" "raw" parsed4w (by decide)
    (by decide) (by decide)
    (normalizeExpense "2024-05-05" parsed4w rawE4w) (by decide)

/-- C10. For every extension outside the seven known image extensions,
the extraction engine's MIME resolution returns image/jpeg while the
retrieval gateway's content-type table returns application/octet-stream. -/
theorem c10_mime_defaults (ext : String)
    (h : ext ∉ [".jpg", ".jpeg", ".png", ".gif", ".webp", ".heic", ".heif"]) :
    getMimeType ext = "image/jpeg"
    ∧ contentTypeFor ext = "application/octet-stream" := by
  simp only [List.mem_cons, List.not_mem_nil, or_false, not_or] at h
  obtain ⟨h1, h2, h3, h4, h5, h6, h7⟩ := h
  exact ⟨by simp [getMimeType, h1, h2, h3, h4, h5, h6, h7],
    by simp [contentTypeFor, h1, h2, h3, h4, h5, h6, h7]⟩

/-- C10 witness: the tables evaluated at the unknown extension .txt. -/
theorem c10_mime_defaults_witness :
    getMimeType ".txt" = "image/jpeg"
    ∧ contentTypeFor ".txt" = "application/octet-stream" :=
  c10_mime_defaults ".txt" (by decide)

/-- Payee resolution performs no effect or exactly one payee
creation. -/
theorem resolvePayee_snd (payees : List Payee) (fid : String)
    (e : EditableExpense) :
    (resolvePayee payees fid e).2 = []
    ∨ ∃ n i, (resolvePayee payees fid e).2 = [Effect.payeeCreate n i] := by
  unfold resolvePayee
  split
  · split
    · exact Or.inl rfl
    · exact Or.inr ⟨e.merchant, fid, rfl⟩
  · exact Or.inl rfl

/-- Every effect of payee resolution is a payee creation. -/
theorem resolvePayee_mem_snd {payees : List Payee} {fid : String}
    {e : EditableExpense} {f : Effect}
    (hf : f ∈ (resolvePayee payees fid e).2) :
    ∃ n i, f = Effect.payeeCreate n i := by
  rcases resolvePayee_snd payees fid e with h | ⟨n, i, h⟩
  · rw [h] at hf
    cases hf
  · rw [h] at hf
    exact ⟨n, i, List.mem_singleton.mp hf⟩

/-- When some expense of the remaining list lacks a truthy account, the
commit loop ends in the missing-account error and adds only payee
creations to the effect log. -/
theorem saveLoop_error_aux (payees : List Payee) (fresh : Nat → String)
    (url : String) :
    ∀ (exps : List EditableExpense) (k : Nat) (txns : List Txn)
      (effs : List Effect),
      (∃ e ∈ exps, jsTruthyS e.account = false) →
      (saveLoop payees fresh url k txns effs exps).2
          = Except.error "All expenses must have an account"
      ∧ ∀ f ∈ (saveLoop payees fresh url k txns effs exps).1,
          f ∈ effs ∨ ∃ n i, f = Effect.payeeCreate n i := by
  intro exps
  induction exps with
  | nil =>
    intro k txns effs h
    obtain ⟨e, he, _⟩ := h
    exact absurd he (List.not_mem_nil e)
  | cons e rest ih =>
    intro k txns effs h
    by_cases hacc : jsTruthyS e.account = true
    · have hrest : ∃ x ∈ rest, jsTruthyS x.account = false := by
        obtain ⟨x, hx, hxf⟩ := h
        rcases List.mem_cons.mp hx with rfl | hx2
        · rw [hacc] at hxf
          cases hxf
        · exact ⟨x, hx2, hxf⟩
      have step := ih
        (if (resolvePayee payees (fresh k) e).2.isEmpty then k else k + 1)
        (txns ++ [mkTxn url e (resolvePayee payees (fresh k) e).1])
        (effs ++ (resolvePayee payees (fresh k) e).2) hrest
      have hred : saveLoop payees fresh url k txns effs (e :: rest)
          = saveLoop payees fresh url
              (if (resolvePayee payees (fresh k) e).2.isEmpty then k
                else k + 1)
              (txns ++ [mkTxn url e (resolvePayee payees (fresh k) e).1])
              (effs ++ (resolvePayee payees (fresh k) e).2) rest := by
        simp [saveLoop, hacc]
      rw [hred]
      refine ⟨step.1, ?_⟩
      intro f hf
      rcases step.2 f hf with hmem | hpc
      · rcases List.mem_append.mp hmem with h1 | h2
        · exact Or.inl h1
        · exact Or.inr (resolvePayee_mem_snd h2)
      · exact Or.inr hpc
    · have hred : saveLoop payees fresh url k txns effs (e :: rest)
          = (effs, Except.error "All expenses must have an account") := by
        simp [saveLoop, hacc]
      rw [hred]
      exact ⟨rfl, fun f hf => Or.inl hf⟩

/-- When every remaining expense has a truthy account, the commit loop
appends only payee creations, ends with exactly one batch submission of
one draft per expense, and succeeds with those drafts. -/
theorem saveLoop_ok_aux (payees : List Payee) (fresh : Nat → String)
    (url : String) :
    ∀ (exps : List EditableExpense) (k : Nat) (txns : List Txn)
      (effs : List Effect),
      (∀ e ∈ exps, jsTruthyS e.account = true) →
      ∃ effs2 txns2,
        saveLoop payees fresh url k txns effs exps
          = (effs ++ effs2 ++ [Effect.batchSubmit (txns ++ txns2)],
              Except.ok (txns ++ txns2))
        ∧ txns2.length = exps.length
        ∧ (∀ f ∈ effs2, ∃ n i, f = Effect.payeeCreate n i)
        ∧ ∀ i (h1 : i < txns2.length) (h2 : i < exps.length),
            ∃ pid, txns2.get ⟨i, h1⟩ = mkTxn url (exps.get ⟨i, h2⟩) pid := by
  intro exps
  induction exps with
  | nil =>
    intro k txns effs _
    refine ⟨[], [], by simp [saveLoop], rfl, ?_, ?_⟩
    · intro f hf
      cases hf
    · intro i h1 h2
      exact absurd h1 (by simp)
  | cons e rest ih =>
    intro k txns effs hall
    have hacc : jsTruthyS e.account = true := hall e (List.mem_cons_self e rest)
    have hrest : ∀ x ∈ rest, jsTruthyS x.account = true :=
      fun x hx => hall x (List.mem_cons_of_mem e hx)
    obtain ⟨effs2, txns2, heq, hlen, hpc, hfields⟩ := ih
      (if (resolvePayee payees (fresh k) e).2.isEmpty then k else k + 1)
      (txns ++ [mkTxn url e (resolvePayee payees (fresh k) e).1])
      (effs ++ (resolvePayee payees (fresh k) e).2) hrest
    refine ⟨(resolvePayee payees (fresh k) e).2 ++ effs2,
      mkTxn url e (resolvePayee payees (fresh k) e).1 :: txns2, ?_, ?_, ?_, ?_⟩
    · have hred : saveLoop payees fresh url k txns effs (e :: rest)
          = saveLoop payees fresh url
              (if (resolvePayee payees (fresh k) e).2.isEmpty then k
                else k + 1)
              (txns ++ [mkTxn url e (resolvePayee payees (fresh k) e).1])
              (effs ++ (resolvePayee payees (fresh k) e).2) rest := by
        simp [saveLoop, hacc]
      rw [hred, heq]
      simp [List.append_assoc]
    · simp [hlen]
    · intro f hf
      rcases List.mem_append.mp hf with h1 | h2
      · exact resolvePayee_mem_snd h1
      · exact hpc f h2
    · intro i h1 h2
      cases i with
      | zero =>
        exact ⟨(resolvePayee payees (fresh k) e).1, rfl⟩
      | succ n =>
        have hn1 : n < txns2.length := Nat.lt_of_succ_lt_succ (by simpa using h1)
        have hn2 : n < rest.length := Nat.lt_of_succ_lt_succ (by simpa using h2)
        obtain ⟨pid, hp⟩ := hfields n hn1 hn2
        exact ⟨pid, hp⟩

/-- C5. For every expense list: when some expense lacks an account the
commit fails with the missing-account error and no transaction batch is
ever submitted; when every expense has an account the commit submits
exactly one batch holding one draft per expense, each carrying the
expense's account, date, amount and category, the receipt link as notes
and cleared set to false. -/
theorem c5_commit_atomicity (payees : List Payee) (fresh : Nat → String)
    (url : String) (exps : List EditableExpense) :
    ((∃ e ∈ exps, jsTruthyS e.account = false) →
      (handleSave payees fresh url exps).2
          = Except.error "All expenses must have an account"
      ∧ ∀ ts, Effect.batchSubmit ts ∉ (handleSave payees fresh url exps).1)
    ∧ ((∀ e ∈ exps, jsTruthyS e.account = true) →
      ∃ txns fx,
        handleSave payees fresh url exps
          = (fx ++ [Effect.batchSubmit txns], Except.ok txns)
        ∧ (∀ f ∈ fx, isBatch f = false)
        ∧ txns.length = exps.length
        ∧ ∀ i (h1 : i < txns.length) (h2 : i < exps.length),
            (txns.get ⟨i, h1⟩).account = (exps.get ⟨i, h2⟩).account
            ∧ (txns.get ⟨i, h1⟩).date = (exps.get ⟨i, h2⟩).date
            ∧ (txns.get ⟨i, h1⟩).amount = (exps.get ⟨i, h2⟩).amount
            ∧ (txns.get ⟨i, h1⟩).category = (exps.get ⟨i, h2⟩).categoryId
            ∧ (txns.get ⟨i, h1⟩).notes = url
            ∧ (txns.get ⟨i, h1⟩).cleared = false) := by
  constructor
  · intro h
    have step := saveLoop_error_aux payees fresh url exps 0 [] [] h
    refine ⟨step.1, ?_⟩
    intro ts hts
    rcases step.2 _ hts with hmem | ⟨n, i, hpc⟩
    · cases hmem
    · cases hpc
  · intro h
    obtain ⟨effs2, txns2, heq, hlen, hpc, hfields⟩ :=
      saveLoop_ok_aux payees fresh url exps 0 [] [] h
    refine ⟨txns2, effs2, ?_, ?_, hlen, ?_⟩
    · simpa [handleSave] using heq
    · intro f hf
      obtain ⟨n, i, rfl⟩ := hpc f hf
      rfl
    · intro i h1 h2
      obtain ⟨pid, hp⟩ := hfields i h1 h2
      rw [hp]
      exact ⟨rfl, rfl, rfl, rfl, rfl, rfl⟩

/-- C5 witness: the error branch evaluated on a one-element list whose
expense has no account. -/
theorem c5_commit_atomicity_witness :
    (handleSave [] (fun _ => "f0") "u" [e5Bad]).2
      = Except.error "All expenses must have an account" :=
  ((c5_commit_atomicity [] (fun _ => "f0") "u" [e5Bad]).1
    ⟨e5Bad, List.mem_singleton.mpr rfl, rfl⟩).1

/-- C6 counterexample. The claim states a failed commit leaves all
external state unchanged, with no payee created even for expenses
preceding the account-less one. For a first expense with an account and
a new merchant followed by an account-less expense, the commit fails but
the payee for the first expense has already been created. -/
theorem c6_partial_effects_counterexample :
    (handleSave [] (fun _ => "pid0") "u" [eGoodM, eNoAcc]).2
      = Except.error "All expenses must have an account"
    ∧ (handleSave [] (fun _ => "pid0") "u" [eGoodM, eNoAcc]).1
      = [Effect.payeeCreate "NewShop" "pid0"] :=
  ⟨rfl, rfl⟩

/-- C6 amended. A failed commit submits no transaction batch — the
transactions-batch endpoint is never reached — but it is not free of
external effects: every effect already in the log is a payee creation,
performed for expenses processed before the first account-less one. -/
theorem c6_failed_commit_effects (payees : List Payee)
    (fresh : Nat → String) (url : String) (exps : List EditableExpense)
    (h : ∃ e ∈ exps, jsTruthyS e.account = false) :
    (handleSave payees fresh url exps).2
        = Except.error "All expenses must have an account"
    ∧ (∀ ts, Effect.batchSubmit ts ∉ (handleSave payees fresh url exps).1)
    ∧ (∀ f ∈ (handleSave payees fresh url exps).1,
        ∃ n i, f = Effect.payeeCreate n i) := by
  have step := saveLoop_error_aux payees fresh url exps 0 [] [] h
  refine ⟨step.1, ?_, ?_⟩
  · intro ts hts
    rcases step.2 _ hts with hmem | ⟨n, i, hpc⟩
    · cases hmem
    · cases hpc
  · intro f hf
    rcases step.2 f hf with hmem | hpc
    · cases hmem
    · exact hpc

/-- C6 witness: the amended error-branch property evaluated on the
concrete two-expense list. -/
theorem c6_failed_commit_effects_witness :
    (handleSave [] (fun _ => "pid0") "u" [eGoodM, eNoAcc]).2
      = Except.error "All expenses must have an account" :=
  (c6_failed_commit_effects [] (fun _ => "pid0") "u" [eGoodM, eNoAcc]
    ⟨eNoAcc, by decide, rfl⟩).1

/-- C7. Payee resolution at commit: for an expense without a truthy
payee and with a non-empty merchant, if some known payee matches the
merchant case-insensitively then the first such payee's id is reused and
nothing is created, and if none matches a single payee named after the
merchant is created and its generated id used; an expense with an
explicit payee or an empty merchant is left exactly as it is, with no
lookup and no creation. -/
theorem c7_payee_resolution (payees : List Payee) (fid : String)
    (e : EditableExpense) :
    (jsTruthyS e.payee = false → e.merchant ≠ "" →
      ((∃ p ∈ payees, p.name.toLower = e.merchant.toLower) →
        ∃ p, p ∈ payees ∧ p.name.toLower = e.merchant.toLower
          ∧ resolvePayee payees fid e = (some p.id, []))
      ∧ ((∀ p ∈ payees, p.name.toLower ≠ e.merchant.toLower) →
        resolvePayee payees fid e
          = (some fid, [Effect.payeeCreate e.merchant fid])))
    ∧ (jsTruthyS e.payee = true ∨ e.merchant = "" →
      resolvePayee payees fid e = (e.payee, [])) := by
  constructor
  · intro hp hm
    have hcond : (!(jsTruthyS e.payee) && !(e.merchant == "")) = true := by
      simp [hp, hm]
    constructor
    · intro hex
      have hsome :
          (payees.find? (fun p => p.name.toLower == e.merchant.toLower)).isSome := by
        rw [List.find?_isSome]
        obtain ⟨p, hpp, hname⟩ := hex
        exact ⟨p, hpp, by simp [hname]⟩
      obtain ⟨p, hfind⟩ := Option.isSome_iff_exists.mp hsome
      refine ⟨p, List.mem_of_find?_eq_some hfind, ?_, ?_⟩
      · simpa using List.find?_some hfind
      · simp [resolvePayee, hcond, hfind]
    · intro hnone
      have hfind :
          payees.find? (fun p => p.name.toLower == e.merchant.toLower) = none := by
        rw [List.find?_eq_none]
        intro p hpp
        simp [hnone p hpp]
      simp [resolvePayee, hcond, hfind]
  · intro h
    have hcond : (!(jsTruthyS e.payee) && !(e.merchant == "")) = false := by
      rcases h with h | h <;> simp [h]
    simp [resolvePayee, hcond]

/-- C7 witness: an expense with an explicit payee is left untouched. -/
theorem c7_payee_resolution_witness :
    resolvePayee [payee7] "f0" exp7 = (exp7.payee, []) :=
  (c7_payee_resolution [payee7] "f0" exp7).2 (Or.inl rfl)

/-- setField satisfies its frame condition. -/
theorem frameOK_setField (u : FieldUpdate) (e : EditableExpense) :
    frameOK u e (setField u e) := by
  cases u <;> simp [frameOK, setField]

/-- C9. On a list with pairwise distinct expense ids, updateExpense
keeps the length and order, rewrites the expense whose id matches to the
single-field update — new value in the named field, every other field
untouched — leaves every expense at a non-matching position unchanged,
and leaves the whole list unchanged when no id matches. -/
theorem c9_update_single_field (l : List EditableExpense) (eid : String)
    (u : FieldUpdate) (_hn : (l.map EditableExpense.id).Nodup) :
    (updateExpense eid u l).length = l.length
    ∧ (∀ i (h1 : i < l.length) (h2 : i < (updateExpense eid u l).length),
        ((l.get ⟨i, h1⟩).id ≠ eid →
          (updateExpense eid u l).get ⟨i, h2⟩ = l.get ⟨i, h1⟩)
        ∧ ((l.get ⟨i, h1⟩).id = eid →
          (updateExpense eid u l).get ⟨i, h2⟩ = setField u (l.get ⟨i, h1⟩)
          ∧ frameOK u (l.get ⟨i, h1⟩)
              ((updateExpense eid u l).get ⟨i, h2⟩)))
    ∧ ((∀ e ∈ l, e.id ≠ eid) → updateExpense eid u l = l) := by
  refine ⟨by simp [updateExpense], ?_, ?_⟩
  · intro i h1 h2
    have hget : (updateExpense eid u l).get ⟨i, h2⟩
        = if (l.get ⟨i, h1⟩).id == eid
            then setField u (l.get ⟨i, h1⟩) else l.get ⟨i, h1⟩ := by
      simp [updateExpense]
    constructor
    · intro hne
      have hb : ¬ (((l.get ⟨i, h1⟩).id == eid) = true) := by
        simpa using hne
      rw [hget, if_neg hb]
    · intro heq
      have hb : ((l.get ⟨i, h1⟩).id == eid) = true := by
        simpa using heq
      rw [hget, if_pos hb]
      exact ⟨rfl, frameOK_setField u (l.get ⟨i, h1⟩)⟩
  · intro hall
    have hcg : ∀ e ∈ l,
        (fun e => if e.id == eid then setField u e else e) e
          = (fun e => e) e := by
      intro e he
      simp [hall e he]
    have := List.map_congr_left hcg
    simpa [updateExpense] using this

/-- C9 witness: an update naming an id absent from a concrete
two-expense list leaves the list unchanged. -/
theorem c9_update_single_field_witness :
    updateExpense "zzz" (FieldUpdate.amount 5) [exp9a, exp9b]
      = [exp9a, exp9b] :=
  (c9_update_single_field [exp9a, exp9b] "zzz" (FieldUpdate.amount 5)
    (by decide)).2.2 (by decide)

end Receipts
